import Mathlib

/- Verification development for the voice-assistant application (chatbot.py).

The core under study is the `SpeechController` class: a text-to-speech
playback controller that runs synthesis on a background thread, joins any
still-alive previous worker before launching a new one, and supports a
foreground `stop` that releases the engine resource.

Modelling choices (shallow embedding):
 - `CState` mirrors the fields set in `SpeechController.__init__`
   (`engine`, `is_speaking`), extended with ghost bookkeeping used to state
   resource properties: `alive` (engine handles created and not yet
   stopped), `createdIds` / `releasedIds` (chronological logs, newest
   first), and `nextId` (fresh-handle counter).
 - The worker body `run_speech` is embedded twice, consistently: as a list
   of atomic steps (`workerProg` / `wstepRun`) used by the interleaving
   semantics, and as a sequential `Except`-valued function (`run_speech`)
   that keeps the try/except/finally structure visible.  The lemma
   `run_speech_eq_runSteps` ties the two together.
 - Concurrency: a system state `Sys` holds the controller state plus the
   remaining program of the (single) background thread.  Events are a
   foreground `speak` call, a foreground `stop` call, or one atomic step
   of the live worker.  `speak`'s join is modelled by running the live
   worker's remaining steps to completion before the new thread is
   spawned (while the issuing thread blocks in `join`, the worker is the
   only runnable thread, so exactly its remaining steps execute).
   Exceptions inside the worker are resolved into which step list runs,
   via `Env` (does `pyttsx3.init` raise? does `say`/`runAndWait` raise?);
   every variant ends with the `finally` steps.
 - The language-model client, the voice-capture routine and the UI reset
   are sequential and are embedded directly; the remote backend and the
   recognizer are oracles passed in as parameters. -/

namespace Chatbot

/-- Fields of `SpeechController` (chatbot.py lines 45-48) plus ghost
resource bookkeeping.  `engine` is `self.engine` (an engine handle or
`none`), `is_speaking` is `self.is_speaking`.  `alive` lists handles
created by `pyttsx3.init()` whose `.stop()` has not been called yet;
`createdIds` and `releasedIds` log creations and releases. -/
structure CState where
  engine : Option Nat
  is_speaking : Bool
  alive : List Nat
  createdIds : List Nat
  releasedIds : List Nat
  nextId : Nat
deriving DecidableEq

/-- `SpeechController.__init__` (lines 45-48): no engine, not speaking. -/
def initCS : CState :=
  { engine := none, is_speaking := false, alive := [], createdIds := [],
    releasedIds := [], nextId := 0 }

/-- Which exceptions the synthesis engine raises during one session:
`initFails` means `pyttsx3.init()` raises, `runFails` means
`setProperty`/`say`/`runAndWait` raises. -/
structure Env where
  initFails : Bool
  runFails : Bool
deriving DecidableEq

/-- One atomic statement of the worker body `run_speech`
(chatbot.py lines 52-63). -/
inductive WStep where
  /-- line 54: `self.is_speaking = True` -/
  | setSpeakingTrue
  /-- line 55: `self.engine = pyttsx3.init()` succeeds, creating a handle -/
  | initEngine
  /-- line 55: `pyttsx3.init()` raises; nothing is assigned (caught below) -/
  | initRaise
  /-- lines 56-58: `setProperty`/`say(text)`/`runAndWait()` complete -/
  | sayRun (text : String)
  /-- lines 56-58: synthesis raises mid-flight (caught below) -/
  | sayRunRaise (text : String)
  /-- line 62: `self.cleanup()` in the `finally` block -/
  | cleanupStep
  /-- line 63: `self.is_speaking = False` in the `finally` block -/
  | setSpeakingFalse
deriving DecidableEq

/-- `SpeechController.cleanup` (lines 79-83): if an engine is held, call
`engine.stop()` (the handle stops being alive, its release is logged) and
clear `self.engine`. -/
def cleanup (cs : CState) : CState :=
  match cs.engine with
  | some i =>
      { cs with
          engine := none
          alive := cs.alive.erase i
          releasedIds := i :: cs.releasedIds }
  | none => cs

/-- `SpeechController.stop` (lines 73-77): only when `self.is_speaking`,
run `cleanup` and clear the flag. -/
def stop (cs : CState) : CState :=
  if cs.is_speaking then { cleanup cs with is_speaking := false } else cs

/-- Effect of one atomic worker statement on the controller state. -/
def wstepRun : WStep → CState → CState
  | .setSpeakingTrue, cs => { cs with is_speaking := true }
  | .initEngine, cs =>
      { cs with
          engine := some cs.nextId
          alive := cs.nextId :: cs.alive
          createdIds := cs.nextId :: cs.createdIds
          nextId := cs.nextId + 1 }
  | .initRaise, cs => cs
  | .sayRun _, cs => cs
  | .sayRunRaise _, cs => cs
  | .cleanupStep, cs => cleanup cs
  | .setSpeakingFalse, cs => { cs with is_speaking := false }

/-- The worker body `run_speech` (lines 52-63) as its sequence of atomic
steps, resolved by which engine calls raise.  Whatever happens in the
`try` block, the `finally` steps (`cleanup`, `is_speaking = False`) close
the program; the `except` arm only displays a message. -/
def workerProg (e : Env) (text : String) : List WStep :=
  if e.initFails then
    [.setSpeakingTrue, .initRaise, .cleanupStep, .setSpeakingFalse]
  else if e.runFails then
    [.setSpeakingTrue, .initEngine, .sayRunRaise text, .cleanupStep,
      .setSpeakingFalse]
  else
    [.setSpeakingTrue, .initEngine, .sayRun text, .cleanupStep,
      .setSpeakingFalse]

/-- Run a list of worker steps to completion (the state after a `join`). -/
def runSteps (th : List WStep) (cs : CState) : CState :=
  th.foldl (fun c w => wstepRun w c) cs

/-- Every intermediate controller state while a list of worker steps runs
(used to state properties that must hold at every instant). -/
def stepsTrace : List WStep → CState → List CState
  | [], _ => []
  | w :: ws, cs => wstepRun w cs :: stepsTrace ws (wstepRun w cs)

/-- Whole-system state: the controller fields plus the remaining program
of the background thread (`self.speech_thread`); `[]` means no live
thread (`is_alive()` is false). -/
structure Sys where
  cs : CState
  thread : List WStep
deriving DecidableEq

/-- Fresh controller, no live thread. -/
def initSys : Sys := { cs := initCS, thread := [] }

/-- Scheduler events: a foreground `speak(text)` call (with the engine
behaviour of the session it starts), one atomic step of the live worker
thread, or a foreground `stop()` call. -/
inductive Ev where
  | speakEv (e : Env) (text : String)
  | wstepEv
  | stopEv
deriving DecidableEq

/-- One event.  `speak` (lines 50-71) first joins the still-alive
previous worker - while the caller blocks in `join`, the worker is the
only runnable thread, so its remaining steps run to completion - and then
spawns the new worker; `speak` itself writes no controller field.
A worker event pops and runs one atomic worker statement.  `stop` runs
atomically on the foreground thread.  The second component is the list of
controller states passed through (one per atomic statement executed), so
"at any instant" properties quantify over it. -/
def sysStepT : Ev → Sys → Sys × List CState
  | .speakEv e t, σ =>
      ({ cs := runSteps σ.thread σ.cs, thread := workerProg e t },
        stepsTrace σ.thread σ.cs)
  | .wstepEv, σ =>
      match σ.thread with
      | [] => (σ, [])
      | w :: ws => ({ cs := wstepRun w σ.cs, thread := ws }, [wstepRun w σ.cs])
  | .stopEv, σ => ({ cs := stop σ.cs, thread := σ.thread }, [stop σ.cs])

/-- Run a list of events, collecting every intermediate controller
state. -/
def runEvents : List Ev → Sys → Sys × List CState
  | [], σ => (σ, [])
  | ev :: evs, σ =>
      ((runEvents evs (sysStepT ev σ).1).1,
        (sysStepT ev σ).2 ++ (runEvents evs (sysStepT ev σ).1).2)

/-- The scenario of claim C1: `speak(a)`, then `k` worker steps happen,
then `speak(b)` is issued (before `a`'s session completed when `k` is
small). -/
def twoSpeakRun (eA eB : Env) (a b : String) (k : Nat) : Sys × List CState :=
  runEvents (Ev.speakEv eA a :: (List.replicate k Ev.wstepEv ++ [Ev.speakEv eB b])) initSys

/-- A controller at rest with respect to resources: no engine held, no
handle alive, every logged creation already logged as released. -/
def Resting (cs : CState) : Prop :=
  cs.engine = none ∧ cs.alive = [] ∧ cs.releasedIds = cs.createdIds

/-- The worker body `run_speech` (lines 52-63) as a sequential function,
keeping the try/except/finally structure: the `try` block either returns
the state or raises carrying the state reached so far. -/
def run_speech_try (e : Env) (text : String) (cs : CState) :
    Except (String × CState) CState :=
  -- self.is_speaking = True
  let cs1 := { cs with is_speaking := true }
  -- self.engine = pyttsx3.init()
  if e.initFails then Except.error ("init failed", cs1)
  else
    let cs2 :=
      { cs1 with
          engine := some cs1.nextId
          alive := cs1.nextId :: cs1.alive
          createdIds := cs1.nextId :: cs1.createdIds
          nextId := cs1.nextId + 1 }
    -- self.engine.setProperty("rate", 150); say(text); runAndWait()
    if e.runFails then Except.error ("speech synthesis error", cs2)
    else Except.ok cs2

/-- The whole worker body: whatever the `try` block does, the `except`
arm swallows the exception (it only displays `st.error(...)`) and the
`finally` block runs `cleanup` and clears `is_speaking`.  The result type
records that no exception escapes the worker. -/
def run_speech (e : Env) (text : String) (cs : CState) : Except String CState :=
  match run_speech_try e text cs with
  | Except.ok cs2 => Except.ok { cleanup cs2 with is_speaking := false }
  | Except.error (_, cs2) => Except.ok { cleanup cs2 with is_speaking := false }

/-- Python `s.replace("•", "")`: delete every bullet character, one
left-to-right pass (chatbot.py line 119). -/
def removeBullet : List Char → List Char
  | [] => []
  | c :: rest =>
      if c = '•' then removeBullet rest else c :: removeBullet rest

/-- Python `s.replace("- ", "")`: delete non-overlapping occurrences of
dash-space in a single left-to-right pass (chatbot.py line 119). -/
def removeDashSpace : List Char → List Char
  | [] => []
  | [c] => [c]
  | c :: c2 :: rest =>
      if c = '-' ∧ c2 = ' ' then removeDashSpace rest
      else c :: removeDashSpace (c2 :: rest)

/-- The whitespace characters removed by Python `str.strip()`. -/
def isPySpace (c : Char) : Bool :=
  c = ' ' ∨ c = '\t' ∨ c = '\n' ∨ c = '\r' ∨ c = '\x0b' ∨ c = '\x0c'

/-- Python `str.strip()`: drop leading and trailing whitespace. -/
def pyStrip (s : List Char) : List Char :=
  ((s.dropWhile isPySpace).reverse.dropWhile isPySpace).reverse

/-- Line 119: `response.text.replace("•", "").replace("- ", "").strip()`. -/
def cleanedResponse (t : String) : String :=
  String.mk (pyStrip (removeDashSpace (removeBullet t.toList)))

/-- Lines 102-106: the fixed paragraph-format instruction wrapped around
the user's query. -/
def paragraph_prompt (user_input : String) : String :=
  "IMPORTANT: Respond in paragraph format ONLY. Never use bullet points, dashes, numbers, or any list formatting. Use complete sentences in a single cohesive paragraph. Query: "
    ++ user_input ++ "\n\nResponse:"

/-- `get_chatbot_response` (lines 92-123).  `gen` is the remote backend:
given the prompt it either returns the response text or raises with a
message.  The `try` block formats the prompt, calls the backend and
cleans the text; the `except` arm returns `"Error: " ++ message` instead
of propagating, so the function always returns a plain string. -/
def get_chatbot_response (gen : String → Except String String)
    (user_input : String) : String :=
  match gen (paragraph_prompt user_input) with
  | Except.ok t => cleanedResponse t
  | Except.error e => "Error: " ++ e

/-- Substring test (used to state the formatting claims). -/
def hasSubstr (pat s : List Char) : Bool :=
  s.tails.any fun t2 => pat.isPrefixOf t2

/-- Outcome of one microphone capture, matching the `try`/`except` arms
of `get_voice_input` (lines 136-160): recognition succeeded, or
`sr.WaitTimeoutError`, or `sr.UnknownValueError`, or any other
exception. -/
inductive VoiceOutcome where
  | recognized (text : String)
  | waitTimeoutErr
  | unknownValueErr
  | otherErr (msg : String)
deriving DecidableEq

/-- `get_voice_input` (lines 125-160): the returned value (recognized
text, or `None` on every failure) paired with the status messages shown
to the user along that path. -/
def get_voice_input (o : VoiceOutcome) : Option String × List String :=
  match o with
  | .recognized t =>
      (some t, ["🎤 Listening... (Speak now)", "✓ Processing..."])
  | .waitTimeoutErr =>
      (none, ["🎤 Listening... (Speak now)", "No speech detected"])
  | .unknownValueErr =>
      (none, ["🎤 Listening... (Speak now)", "Could not understand audio"])
  | .otherErr m =>
      (none, ["🎤 Listening... (Speak now)", "Error: " ++ m])

/-- The Streamlit session-state fields touched by `reset_app`
(lines 169-182), with the speech controller held in session state. -/
structure AppState where
  chat_response : String
  user_input : String
  is_speaking : Bool
  input_text_key : Nat
  speech_controller : CState
deriving DecidableEq

/-- `reset_app` (lines 176-182): clear the response and query fields,
clear the UI speaking flag, bump the text-input key, and stop the speech
controller. -/
def reset_app (a : AppState) : AppState :=
  { chat_response := "", user_input := "", is_speaking := false,
    input_text_key := a.input_text_key + 1,
    speech_controller := stop a.speech_controller }

/-- Proof device: the values `self.speech_thread`'s remaining program can
take - the suffixes of the three variants of `workerProg`. -/
def ThreadOK (th : List WStep) : Prop :=
  th = [] ∨
  th = [.setSpeakingFalse] ∨
  th = [.cleanupStep, .setSpeakingFalse] ∨
  (∃ t, th = [.sayRun t, .cleanupStep, .setSpeakingFalse]) ∨
  (∃ t, th = [.sayRunRaise t, .cleanupStep, .setSpeakingFalse]) ∨
  (∃ t, th = [.initEngine, .sayRun t, .cleanupStep, .setSpeakingFalse]) ∨
  (∃ t, th = [.initEngine, .sayRunRaise t, .cleanupStep, .setSpeakingFalse]) ∨
  th = [.initRaise, .cleanupStep, .setSpeakingFalse] ∨
  th = [.setSpeakingTrue, .initRaise, .cleanupStep, .setSpeakingFalse] ∨
  (∃ t, th = [.setSpeakingTrue, .initEngine, .sayRun t, .cleanupStep, .setSpeakingFalse]) ∨
  (∃ t, th = [.setSpeakingTrue, .initEngine, .sayRunRaise t, .cleanupStep, .setSpeakingFalse])

/-- The controller invariant, relative to the remaining worker program:
before the engine is created the controller is resting; between creation
and cleanup either exactly the current handle is alive (and is the one
creation not yet released) or a foreground `stop` already released it;
after cleanup the controller is resting again, and with no live thread
the speaking flag is down.  Creation logs never repeat and stay below the
fresh counter. -/
def CInv (cs : CState) (th : List WStep) : Prop :=
  cs.createdIds.Nodup ∧ (∀ i ∈ cs.createdIds, i < cs.nextId) ∧
  (if WStep.initEngine ∈ th then Resting cs
   else if WStep.cleanupStep ∈ th then
     (∃ i, cs.engine = some i ∧ cs.alive = [i] ∧
       cs.createdIds = i :: cs.releasedIds) ∨ Resting cs
   else Resting cs ∧ (th = [] → cs.is_speaking = false))

/-- System invariant: the thread holds a genuine worker-program suffix
and the controller satisfies the phase invariant. -/
def SysInv (σ : Sys) : Prop := ThreadOK σ.thread ∧ CInv σ.cs σ.thread

@[simp]
lemma cleanup_createdIds (cs : CState) :
    (cleanup cs).createdIds = cs.createdIds := by
  unfold cleanup; split <;> rfl

@[simp]
lemma cleanup_nextId (cs : CState) : (cleanup cs).nextId = cs.nextId := by
  unfold cleanup; split <;> rfl

@[simp]
lemma cleanup_is_speaking (cs : CState) :
    (cleanup cs).is_speaking = cs.is_speaking := by
  unfold cleanup; split <;> rfl

lemma stop_is_speaking (cs : CState) : (stop cs).is_speaking = false := by
  unfold stop
  split
  · rfl
  · next h => simpa using h

lemma CInv_alive {cs : CState} {th : List WStep} (h : CInv cs th) :
    cs.alive.length ≤ 1 := by
  obtain ⟨-, -, hph⟩ := h
  split at hph
  · obtain ⟨-, h2, -⟩ := hph; simp [h2]
  · split at hph
    · rcases hph with ⟨i, -, h2, -⟩ | ⟨-, h2, -⟩ <;> simp [h2]
    · obtain ⟨⟨-, h2, -⟩, -⟩ := hph; simp [h2]

lemma nodup_cons_fresh {n : Nat} {l : List Nat} (hn : l.Nodup)
    (hb : ∀ i ∈ l, i < n) : (n :: l).Nodup := by
  refine List.nodup_cons.mpr ⟨fun hmem => ?_, hn⟩
  exact absurd (hb n hmem) (lt_irrefl n)

lemma bounds_cons {n : Nat} {l : List Nat} (hb : ∀ i ∈ l, i < n) :
    ∀ i ∈ n :: l, i < n + 1 := by
  intro i hi
  rcases List.mem_cons.mp hi with rfl | hi
  · omega
  · exact Nat.lt_succ_of_lt (hb i hi)

lemma workerProg_ok (e : Env) (t : String) : ThreadOK (workerProg e t) := by
  obtain ⟨i, r⟩ := e
  cases i <;> cases r <;> simp [workerProg, ThreadOK]

/-- The invariant holds for any remaining program once the controller is
resting with the speaking flag down. -/
lemma CInv_any {cs : CState} (h : CInv cs []) (th : List WStep) :
    CInv cs th := by
  obtain ⟨hnd, hbd, hph⟩ := h
  simp only [List.not_mem_nil, if_false, ite_false, eq_self_iff_true,
    forall_true_left, true_implies] at hph
  obtain ⟨hrest, hsp⟩ := hph
  refine ⟨hnd, hbd, ?_⟩
  split
  · exact hrest
  · split
    · exact Or.inr hrest
    · exact ⟨hrest, fun _ => hsp⟩

/-- Each atomic worker statement preserves the invariant. -/
lemma wstep_pres {w : WStep} {ws : List WStep} {cs : CState}
    (hok : ThreadOK (w :: ws)) (hinv : CInv cs (w :: ws)) :
    CInv (wstepRun w cs) ws ∧ ThreadOK ws := by
  obtain ⟨hnd, hbd, hph⟩ := hinv
  rcases hok with h | h | h | ⟨t, h⟩ | ⟨t, h⟩ | ⟨t, h⟩ | ⟨t, h⟩ | h | h | ⟨t, h⟩ | ⟨t, h⟩
  · exact absurd h (List.cons_ne_nil w ws)
  -- [setSpeakingFalse] → []
  · injection h with hw hws; subst hw; subst hws
    refine ⟨?_, Or.inl rfl⟩
    simp only [CInv, wstepRun, Resting, List.mem_singleton, List.not_mem_nil,
      reduceCtorEq, if_false, ite_false] at hph ⊢
    tauto
  -- [cleanupStep, setSpeakingFalse] → [setSpeakingFalse]
  · injection h with hw hws; subst hw; subst hws
    refine ⟨?_, Or.inr (Or.inl rfl)⟩
    simp only [CInv, wstepRun, List.mem_cons, List.mem_singleton,
      List.not_mem_nil, reduceCtorEq, or_false, false_or, if_false,
      ite_false, ite_true, if_true] at hph ⊢
    refine ⟨by simpa using hnd, by simpa using hbd, ?_⟩
    rcases hph with ⟨i, hE, hA, hC⟩ | ⟨hE, hA, hR⟩
    · simp only [Resting, cleanup, hE, hA, hC]
      simp
    · simp only [Resting, cleanup, hE]
      simp [hE, hA, hR]
  -- [sayRun t, cleanupStep, setSpeakingFalse] → [cleanupStep, setSpeakingFalse]
  · injection h with hw hws; subst hw; subst hws
    refine ⟨?_, Or.inr (Or.inr (Or.inl rfl))⟩
    simp only [CInv, wstepRun, List.mem_cons, List.mem_singleton,
      List.not_mem_nil, reduceCtorEq, or_false, false_or, if_false,
      ite_false, ite_true, if_true] at hph ⊢
    exact ⟨hnd, hbd, hph⟩
  -- [sayRunRaise t, cleanupStep, setSpeakingFalse] → [cleanupStep, setSpeakingFalse]
  · injection h with hw hws; subst hw; subst hws
    refine ⟨?_, Or.inr (Or.inr (Or.inl rfl))⟩
    simp only [CInv, wstepRun, List.mem_cons, List.mem_singleton,
      List.not_mem_nil, reduceCtorEq, or_false, false_or, if_false,
      ite_false, ite_true, if_true] at hph ⊢
    exact ⟨hnd, hbd, hph⟩
  -- [initEngine, sayRun t, ...] → [sayRun t, cleanupStep, setSpeakingFalse]
  · injection h with hw hws; subst hw; subst hws
    refine ⟨?_, by simp [ThreadOK]⟩
    simp only [CInv, wstepRun, Resting, List.mem_cons, List.mem_singleton,
      List.not_mem_nil, reduceCtorEq, or_false, false_or, if_false,
      ite_false, ite_true, if_true] at hph ⊢
    obtain ⟨hE, hA, hR⟩ := hph
    refine ⟨nodup_cons_fresh hnd hbd, ?_, ?_⟩
    · intro i hi
      rcases hi with rfl | hi
      · omega
      · exact Nat.lt_succ_of_lt (hbd i hi)
    · exact Or.inl ⟨cs.nextId, rfl, by simp [hA], by simp [hR]⟩
  -- [initEngine, sayRunRaise t, ...] → [sayRunRaise t, cleanupStep, setSpeakingFalse]
  · injection h with hw hws; subst hw; subst hws
    refine ⟨?_, by simp [ThreadOK]⟩
    simp only [CInv, wstepRun, Resting, List.mem_cons, List.mem_singleton,
      List.not_mem_nil, reduceCtorEq, or_false, false_or, if_false,
      ite_false, ite_true, if_true] at hph ⊢
    obtain ⟨hE, hA, hR⟩ := hph
    refine ⟨nodup_cons_fresh hnd hbd, ?_, ?_⟩
    · intro i hi
      rcases hi with rfl | hi
      · omega
      · exact Nat.lt_succ_of_lt (hbd i hi)
    · exact Or.inl ⟨cs.nextId, rfl, by simp [hA], by simp [hR]⟩
  -- [initRaise, cleanupStep, setSpeakingFalse] → [cleanupStep, setSpeakingFalse]
  · injection h with hw hws; subst hw; subst hws
    refine ⟨?_, Or.inr (Or.inr (Or.inl rfl))⟩
    simp only [CInv, wstepRun, List.mem_cons, List.mem_singleton,
      List.not_mem_nil, reduceCtorEq, or_false, false_or, if_false,
      ite_false, ite_true, if_true] at hph ⊢
    exact ⟨hnd, hbd, hph⟩
  -- [setSpeakingTrue, initRaise, ...] → [initRaise, cleanupStep, setSpeakingFalse]
  · injection h with hw hws; subst hw; subst hws
    refine ⟨?_, by simp [ThreadOK]⟩
    simp only [CInv, wstepRun, Resting, List.mem_cons, List.mem_singleton,
      List.not_mem_nil, reduceCtorEq, or_false, false_or, if_false,
      ite_false, ite_true, if_true] at hph ⊢
    exact ⟨hnd, hbd, hph⟩
  -- [setSpeakingTrue, initEngine, sayRun t, ...] → tail
  · injection h with hw hws; subst hw; subst hws
    refine ⟨?_, by simp [ThreadOK]⟩
    simp only [CInv, wstepRun, Resting, List.mem_cons, List.mem_singleton,
      List.not_mem_nil, reduceCtorEq, or_false, false_or, if_false,
      ite_false, ite_true, if_true] at hph ⊢
    exact ⟨hnd, hbd, hph⟩
  -- [setSpeakingTrue, initEngine, sayRunRaise t, ...] → tail
  · injection h with hw hws; subst hw; subst hws
    refine ⟨?_, by simp [ThreadOK]⟩
    simp only [CInv, wstepRun, Resting, List.mem_cons, List.mem_singleton,
      List.not_mem_nil, reduceCtorEq, or_false, false_or, if_false,
      ite_false, ite_true, if_true] at hph ⊢
    exact ⟨hnd, hbd, hph⟩

/-- A foreground `stop` preserves the invariant (whatever phase the
worker is in). -/
lemma stop_pres {cs : CState} {th : List WStep} (h : CInv cs th) :
    CInv (stop cs) th := by
  obtain ⟨hnd, hbd, hph⟩ := h
  by_cases hsp : cs.is_speaking
  case neg =>
    have : stop cs = cs := by simp [stop, hsp]
    rw [this]
    exact ⟨hnd, hbd, hph⟩
  case pos =>
    simp only [stop, hsp, if_true, ite_true]
    refine ⟨by simpa using hnd, by simpa using hbd, ?_⟩
    by_cases h1 : WStep.initEngine ∈ th
    · rw [if_pos h1] at hph ⊢
      obtain ⟨hE, hA, hR⟩ := hph
      simp [Resting, cleanup, hE, hA, hR]
    · rw [if_neg h1] at hph ⊢
      by_cases h2 : WStep.cleanupStep ∈ th
      · rw [if_pos h2] at hph ⊢
        rcases hph with ⟨i, hE, hA, hC⟩ | ⟨hE, hA, hR⟩
        · right
          simp [Resting, cleanup, hE, hA, hC]
        · right
          simp [Resting, cleanup, hE, hA, hR]
      · rw [if_neg h2] at hph ⊢
        obtain ⟨⟨hE, hA, hR⟩, -⟩ := hph
        exact ⟨by simp [Resting, cleanup, hE, hA, hR], fun _ => rfl⟩

lemma runSteps_cons (w : WStep) (ws : List WStep) (cs : CState) :
    runSteps (w :: ws) cs = runSteps ws (wstepRun w cs) := rfl

/-- Joining a worker (running its remaining steps to completion) lands in
the resting phase. -/
lemma runSteps_inv : ∀ (th : List WStep) (cs : CState), ThreadOK th →
    CInv cs th → CInv (runSteps th cs) []
  | [], _, _, hinv => hinv
  | w :: ws, cs, hok, hinv => by
      obtain ⟨h1, h2⟩ := wstep_pres hok hinv
      exact runSteps_inv ws (wstepRun w cs) h2 h1

/-- Every intermediate state of a running worker keeps at most one engine
handle alive. -/
lemma stepsTrace_alive : ∀ (th : List WStep) (cs : CState), ThreadOK th →
    CInv cs th → ∀ c ∈ stepsTrace th cs, c.alive.length ≤ 1
  | [], _, _, _ => by
      intro c hc
      simp [stepsTrace] at hc
  | w :: ws, cs, hok, hinv => by
      intro c hc
      obtain ⟨h1, h2⟩ := wstep_pres hok hinv
      simp only [stepsTrace, List.mem_cons] at hc
      rcases hc with rfl | hc
      · exact CInv_alive h1
      · exact stepsTrace_alive ws (wstepRun w cs) h2 h1 c hc

/-- Every event preserves the system invariant. -/
lemma sysStep_inv (ev : Ev) {σ : Sys} (h : SysInv σ) :
    SysInv (sysStepT ev σ).1 := by
  obtain ⟨hok, hinv⟩ := h
  cases ev with
  | speakEv e t =>
      exact ⟨workerProg_ok e t, CInv_any (runSteps_inv σ.thread σ.cs hok hinv) _⟩
  | wstepEv =>
      obtain ⟨cs, th⟩ := σ
      cases th with
      | nil => exact ⟨hok, hinv⟩
      | cons w ws =>
          obtain ⟨h1, h2⟩ := wstep_pres hok hinv
          exact ⟨h2, h1⟩
  | stopEv => exact ⟨hok, stop_pres hinv⟩

/-- Every controller state an event passes through keeps at most one
engine handle alive. -/
lemma sysStepT_alive (ev : Ev) {σ : Sys} (h : SysInv σ) :
    ∀ c ∈ (sysStepT ev σ).2, c.alive.length ≤ 1 := by
  obtain ⟨hok, hinv⟩ := h
  cases ev with
  | speakEv e t => exact stepsTrace_alive σ.thread σ.cs hok hinv
  | wstepEv =>
      obtain ⟨cs, th⟩ := σ
      cases th with
      | nil =>
          intro c hc
          simp [sysStepT] at hc
      | cons w ws =>
          intro c hc
          simp only [sysStepT, List.mem_singleton] at hc
          subst hc
          exact CInv_alive (wstep_pres hok hinv).1
  | stopEv =>
      intro c hc
      simp only [sysStepT, List.mem_singleton] at hc
      subst hc
      exact CInv_alive (stop_pres hinv)

lemma runEvents_inv : ∀ (evs : List Ev) (σ : Sys), SysInv σ →
    SysInv (runEvents evs σ).1
  | [], _, h => h
  | ev :: evs, σ, h => runEvents_inv evs _ (sysStep_inv ev h)

lemma runEvents_alive : ∀ (evs : List Ev) (σ : Sys), SysInv σ →
    ∀ c ∈ (runEvents evs σ).2, c.alive.length ≤ 1
  | [], _, _ => by
      intro c hc
      simp [runEvents] at hc
  | ev :: evs, σ, h => by
      intro c hc
      simp only [runEvents, List.mem_append] at hc
      rcases hc with hc | hc
      · exact sysStepT_alive ev ⟨h.1, h.2⟩ c hc
      · exact runEvents_alive evs _ (sysStep_inv ev h) c hc

lemma runEvents_append : ∀ (l1 l2 : List Ev) (σ : Sys),
    runEvents (l1 ++ l2) σ =
      ((runEvents l2 (runEvents l1 σ).1).1,
        (runEvents l1 σ).2 ++ (runEvents l2 (runEvents l1 σ).1).2)
  | [], l2, σ => by simp [runEvents]
  | ev :: l1, l2, σ => by
      have ih := runEvents_append l1 l2 (sysStepT ev σ).1
      simp only [List.cons_append, runEvents, List.append_eq] at ih ⊢
      rw [ih, List.append_assoc]

lemma SysInv_init : SysInv initSys := by
  refine ⟨Or.inl rfl, ?_⟩
  simp [CInv, initCS, initSys, Resting]

/-- C1: for `speak(a)` followed by `speak(b)` issued after `k` worker
steps (in particular before `a`'s session completed), at the instant `b`'s
worker is spawned its program has not run at all, while `a`'s session is
terminal: no engine is held, no engine handle is alive, the speaking flag
is down, and every engine handle ever created has been released - `speak`
joins the still-alive previous worker before launching the new one.
Moreover every controller state passed through, at any instant of the
whole scenario, has at most one engine handle alive. -/
theorem c1_speak_serializes (eA eB : Env) (a b : String) (k : Nat) :
    (twoSpeakRun eA eB a b k).1.thread = workerProg eB b
  ∧ (twoSpeakRun eA eB a b k).1.cs.engine = none
  ∧ (twoSpeakRun eA eB a b k).1.cs.alive = []
  ∧ (twoSpeakRun eA eB a b k).1.cs.is_speaking = false
  ∧ (twoSpeakRun eA eB a b k).1.cs.releasedIds =
      (twoSpeakRun eA eB a b k).1.cs.createdIds
  ∧ (twoSpeakRun eA eB a b k).2.all
      (fun c => decide (c.alive.length ≤ 1)) = true := by
  have hstep1 : SysInv (sysStepT (Ev.speakEv eA a) initSys).1 :=
    sysStep_inv _ SysInv_init
  have hmid : SysInv (runEvents (List.replicate k Ev.wstepEv)
      (sysStepT (Ev.speakEv eA a) initSys).1).1 :=
    runEvents_inv _ _ hstep1
  have hfin : (twoSpeakRun eA eB a b k).1 =
      (sysStepT (Ev.speakEv eB b)
        (runEvents (List.replicate k Ev.wstepEv)
          (sysStepT (Ev.speakEv eA a) initSys).1).1).1 := by
    simp [twoSpeakRun, runEvents, runEvents_append]
  obtain ⟨-, -, hph⟩ := runSteps_inv _ _ hmid.1 hmid.2
  simp only [List.not_mem_nil, if_false, ite_false, eq_self_iff_true,
    forall_true_left, true_implies] at hph
  obtain ⟨⟨hE, hA, hR⟩, hsp⟩ := hph
  have htr : (twoSpeakRun eA eB a b k).2.all
      (fun c => decide (c.alive.length ≤ 1)) = true := by
    rw [List.all_eq_true]
    intro c hc
    rw [decide_eq_true_eq]
    exact runEvents_alive _ _ SysInv_init c hc
  refine ⟨?_, ?_, ?_, ?_, ?_, htr⟩
  · rw [hfin]
    rfl
  · rw [hfin]
    exact hE
  · rw [hfin]
    exact hA
  · rw [hfin]
    exact hsp
  · rw [hfin]
    exact hR

/-- C2: whenever the worker thread has exited (its program has fully run,
whatever mix of worker steps and foreground `stop` calls led there, and
whether the session completed, raised, or was stopped mid-flight), every
engine handle ever created has been released, and exactly once: the
release log equals the creation log, which has no duplicates.  The
cleanup path of `run_speech` is unconditional. -/
theorem c2_release_exactly_once (evs : List Ev)
    (h : (runEvents evs initSys).1.thread = []) :
    (runEvents evs initSys).1.cs.releasedIds =
      (runEvents evs initSys).1.cs.createdIds
  ∧ (runEvents evs initSys).1.cs.createdIds.Nodup := by
  obtain ⟨-, hc⟩ := runEvents_inv evs initSys SysInv_init
  rw [h] at hc
  obtain ⟨hnd, -, hph⟩ := hc
  simp only [List.not_mem_nil, if_false, ite_false, eq_self_iff_true,
    forall_true_left, true_implies] at hph
  exact ⟨hph.1.2.2, hnd⟩

/-- Witness for C2: a session that is stopped mid-flight (two worker
steps, a foreground `stop`, then the rest of the worker) releases its
engine exactly once. -/
theorem c2_release_exactly_once_witness :
    ((runEvents [Ev.speakEv ⟨false, false⟩ "hi", Ev.wstepEv, Ev.wstepEv,
        Ev.stopEv, Ev.wstepEv, Ev.wstepEv, Ev.wstepEv] initSys).1.thread = [])
  ∧ ((runEvents [Ev.speakEv ⟨false, false⟩ "hi", Ev.wstepEv, Ev.wstepEv,
        Ev.stopEv, Ev.wstepEv, Ev.wstepEv, Ev.wstepEv] initSys).1.cs.releasedIds =
      (runEvents [Ev.speakEv ⟨false, false⟩ "hi", Ev.wstepEv, Ev.wstepEv,
        Ev.stopEv, Ev.wstepEv, Ev.wstepEv, Ev.wstepEv] initSys).1.cs.createdIds
    ∧ (runEvents [Ev.speakEv ⟨false, false⟩ "hi", Ev.wstepEv, Ev.wstepEv,
        Ev.stopEv, Ev.wstepEv, Ev.wstepEv, Ev.wstepEv] initSys).1.cs.createdIds.Nodup) :=
  ⟨by decide, c2_release_exactly_once _ (by decide)⟩

/-- C3: whatever the synthesis engine does (`init` raises, `runAndWait`
raises, or everything succeeds), the worker body returns normally - the
exception is caught inside, never propagated - and the terminal state has
the speaking flag down, no engine held, and every created handle
released, exactly as on normal completion. -/
theorem c3_engine_errors_caught (e : Env) (text : String) (cs : CState)
    (h : Resting cs) :
    ∃ cs2, run_speech e text cs = Except.ok cs2 ∧
      cs2.is_speaking = false ∧ Resting cs2 := by
  obtain ⟨hE, hA, hR⟩ := h
  obtain ⟨i, r⟩ := e
  cases i <;> cases r <;>
    refine ⟨_, rfl, rfl, ?_⟩ <;>
    simp [run_speech, run_speech_try, cleanup, Resting, hE, hA, hR]

/-- Witness for C3: a session whose `runAndWait` raises still ends
resting with the flag down. -/
theorem c3_engine_errors_caught_witness :
    Resting initCS ∧
      ∃ cs2, run_speech ⟨false, true⟩ "hello" initCS = Except.ok cs2 ∧
        cs2.is_speaking = false ∧ Resting cs2 :=
  ⟨⟨rfl, rfl, rfl⟩,
    c3_engine_errors_caught ⟨false, true⟩ "hello" initCS ⟨rfl, rfl, rfl⟩⟩

/-- Consistency of the two embeddings of the worker body. -/
lemma run_speech_eq_runSteps (e : Env) (text : String) (cs : CState) :
    run_speech e text cs = Except.ok (runSteps (workerProg e text) cs) := by
  obtain ⟨i, r⟩ := e
  cases i <;> cases r <;> rfl

/-- C4: `stop` is idempotent, and when the controller is not speaking
(idle) it is a no-op leaving the state unchanged. -/
theorem c4_stop_idempotent (cs : CState) :
    stop (stop cs) = stop cs ∧ (cs.is_speaking = false → stop cs = cs) := by
  constructor
  · rcases Bool.eq_false_or_eq_true cs.is_speaking with hsp | hsp <;>
      simp [stop, hsp]
  · intro h
    simp [stop, h]

/-- Witness for C4 at the idle initial controller. -/
theorem c4_stop_idempotent_witness :
    stop (stop initCS) = stop initCS ∧ stop initCS = initCS :=
  ⟨(c4_stop_idempotent initCS).1, (c4_stop_idempotent initCS).2 rfl⟩

/-- C5 counterexample: `speak` has no emptiness check.  Called with the
empty string on a fresh controller it launches a worker (the spawned
thread has pending statements), and running that worker changes the
controller state (an engine handle is created), refuting "starts no
session, launches no worker, changes no controller state". -/
theorem c5_counterexample :
    1 ≤ (sysStepT (Ev.speakEv ⟨false, false⟩ "") initSys).1.thread.length
  ∧ (runEvents (Ev.speakEv ⟨false, false⟩ "" :: List.replicate 5 Ev.wstepEv)
      initSys).1.cs.createdIds = [0] := by
  exact ⟨by decide, by decide⟩

/-- C5 amended: `speak` treats empty or whitespace-only text exactly like
any other text - it performs the same join (same controller state after
the call) and launches a full worker for the empty string too. -/
theorem c5_amended (σ : Sys) (e : Env) (t : String) :
    (sysStepT (Ev.speakEv e "") σ).1.cs = (sysStepT (Ev.speakEv e t) σ).1.cs
  ∧ (sysStepT (Ev.speakEv e "") σ).1.thread = workerProg e ""
  ∧ 1 ≤ (workerProg e "").length := by
  refine ⟨rfl, rfl, ?_⟩
  obtain ⟨i, r⟩ := e
  cases i <;> cases r <;> decide

/-- C6: after `reset_app` the controller's speaking flag is down (the
active playback was stopped), the UI speaking flag is down, and the
last-response and last-query fields are cleared - for every prior
application state, in particular one whose session was speaking. -/
theorem c6_reset_clears (a : AppState) :
    (reset_app a).speech_controller.is_speaking = false
  ∧ (reset_app a).is_speaking = false
  ∧ (reset_app a).chat_response = ""
  ∧ (reset_app a).user_input = "" :=
  ⟨stop_is_speaking _, rfl, rfl, rfl⟩

/-- C10: the `speak` call itself writes no controller field: the state
after `speak` is exactly the result of the joined previous worker's own
steps, and when no previous worker is alive the controller state - in
particular `is_speaking` - is untouched (the new worker has not run yet). -/
theorem c10_speak_frame (σ : Sys) (e : Env) (t : String) :
    ((sysStepT (Ev.speakEv e t) σ).1.cs = runSteps σ.thread σ.cs)
  ∧ (σ.thread = [] →
      (sysStepT (Ev.speakEv e t) σ).1.cs.is_speaking = σ.cs.is_speaking
      ∧ (sysStepT (Ev.speakEv e t) σ).1.cs = σ.cs) := by
  refine ⟨rfl, fun h => ?_⟩
  constructor <;> simp [sysStepT, h, runSteps]

/-- Witness for C10: right after `speak` on a fresh controller the flag
still reads false and the state is unchanged. -/
theorem c10_speak_frame_witness :
    (sysStepT (Ev.speakEv ⟨false, false⟩ "hello") initSys).1.cs.is_speaking
        = initSys.cs.is_speaking
  ∧ (sysStepT (Ev.speakEv ⟨false, false⟩ "hello") initSys).1.cs = initSys.cs :=
  (c10_speak_frame initSys ⟨false, false⟩ "hello").2 rfl

lemma removeBullet_no_bullet : ∀ s : List Char, '•' ∉ removeBullet s
  | [] => by simp [removeBullet]
  | c :: rest => by
      by_cases hc : c = '•'
      · simpa [removeBullet, hc] using removeBullet_no_bullet rest
      · simp only [removeBullet, hc, if_false, ite_false]
        intro hmem
        rcases List.mem_cons.mp hmem with rfl | hmem
        · exact hc rfl
        · exact removeBullet_no_bullet rest hmem

lemma removeDashSpace_sublist : ∀ s : List Char, List.Sublist (removeDashSpace s) s
  | [] => List.Sublist.refl _
  | [c] => List.Sublist.refl _
  | c :: c2 :: rest => by
      by_cases h : c = '-' ∧ c2 = ' '
      · simp only [removeDashSpace, h, if_true, ite_true]
        exact (removeDashSpace_sublist rest).trans
          ((List.sublist_cons_self _ _).trans (List.sublist_cons_self _ _))
      · simp only [removeDashSpace, h, if_false, ite_false]
        exact List.Sublist.cons₂ c (removeDashSpace_sublist (c2 :: rest))

lemma pyStrip_subset {x : Char} {s : List Char} (h : x ∈ pyStrip s) :
    x ∈ s := by
  unfold pyStrip at h
  rw [List.mem_reverse] at h
  have h1 : x ∈ (s.dropWhile isPySpace).reverse :=
    List.dropWhile_subset _ h
  rw [List.mem_reverse] at h1
  exact List.dropWhile_subset _ h1

lemma cleanedResponse_no_bullet (t : String) :
    '•' ∉ (cleanedResponse t).toList := by
  intro hmem
  have h1 : '•' ∈ pyStrip (removeDashSpace (removeBullet t.toList)) := hmem
  have h2 := pyStrip_subset h1
  have h3 := (removeDashSpace_sublist _).subset h2
  exact removeBullet_no_bullet _ h3

lemma contains_eq_false_of_not_mem {c : Char} {l : List Char} (h : c ∉ l) :
    l.contains c = false := by
  show l.elem c = false
  cases hc : l.elem c with
  | false => rfl
  | true => exact absurd (List.mem_of_elem_eq_true hc) h

/-- C7 counterexample: on the error path the message is returned without
any stripping, so with a backend whose exception message contains a
dash-space sequence the returned string contains "- ", refuting "contains
no bullet glyph and no dash-space sequence on every return path". -/
theorem c7_counterexample :
    hasSubstr ['-', ' ']
      (get_chatbot_response (fun _ => Except.error "- boom") "any query").toList
      = true := by
  decide

/-- C7 amended: on the success path the returned string contains no
bullet glyph (the bullet pass removes them all and the later passes only
delete or trim characters); the dash-space pass is a single left-to-right
pass, which can leave a residual "- " formed by adjacent deletions (the
backend text "--  x" yields "- x"); and the error path returns
`"Error: " ++ message` verbatim, with no stripping at all. -/
theorem c7_amended (tOk eMsg q : String) :
    (get_chatbot_response (fun _ => Except.ok tOk) q).toList.contains '•'
        = false
  ∧ get_chatbot_response (fun _ => Except.error eMsg) q = "Error: " ++ eMsg
  ∧ get_chatbot_response (fun _ => Except.ok "--  x") q = "- x" := by
  refine ⟨?_, rfl, rfl⟩
  exact contains_eq_false_of_not_mem (cleanedResponse_no_bullet tOk)

/-- C8: when the backend raises, `get_chatbot_response` swallows the
exception and returns the descriptive string `"Error: " ++ message`; its
return type is a plain string on every path, so the caller never sees an
exception. -/
theorem c8_never_raises (gen : String → Except String String) (q e : String)
    (h : gen (paragraph_prompt q) = Except.error e) :
    get_chatbot_response gen q = "Error: " ++ e := by
  unfold get_chatbot_response
  rw [h]

/-- Witness for C8 at a backend that always raises. -/
theorem c8_never_raises_witness :
    get_chatbot_response (fun _ => Except.error "transport failure") "hello"
      = "Error: " ++ "transport failure" :=
  c8_never_raises (fun _ => Except.error "transport failure") "hello"
    "transport failure" rfl

/-- C9 counterexample: the three capture-failure kinds all return the
same value `none`, so no caller can distinguish them from the return
value - the return value is not a typed three-way failure result. -/
theorem c9_counterexample :
    (get_voice_input VoiceOutcome.waitTimeoutErr).1 =
      (get_voice_input VoiceOutcome.unknownValueErr).1
  ∧ (get_voice_input VoiceOutcome.unknownValueErr).1 =
      (get_voice_input (VoiceOutcome.otherErr "device error")).1
  ∧ (get_voice_input VoiceOutcome.waitTimeoutErr).1 = none :=
  ⟨rfl, rfl, rfl⟩

/-- C9 amended: capture returns the recognized text on success and `none`
on every failure; the three failure kinds are distinguished only in the
status message displayed to the user, which is a different message for
each kind, not in the return value. -/
theorem c9_amended (t m : String) :
    (get_voice_input (VoiceOutcome.recognized t)).1 = some t
  ∧ (get_voice_input VoiceOutcome.waitTimeoutErr).1 = none
  ∧ (get_voice_input VoiceOutcome.unknownValueErr).1 = none
  ∧ (get_voice_input (VoiceOutcome.otherErr m)).1 = none
  ∧ (get_voice_input VoiceOutcome.waitTimeoutErr).2 =
      ["🎤 Listening... (Speak now)", "No speech detected"]
  ∧ (get_voice_input VoiceOutcome.unknownValueErr).2 =
      ["🎤 Listening... (Speak now)", "Could not understand audio"]
  ∧ (get_voice_input (VoiceOutcome.otherErr m)).2 =
      ["🎤 Listening... (Speak now)", "Error: " ++ m]
  ∧ ((get_voice_input VoiceOutcome.waitTimeoutErr).2 ==
      (get_voice_input VoiceOutcome.unknownValueErr).2) = false :=
  ⟨rfl, rfl, rfl, rfl, rfl, rfl, rfl, by decide⟩

end Chatbot
